import Mathlib

/-!
Verification of `docs/misc/seed-demo-db.py` from the find-anything demo-data
repository.  The script's helper functions are shallowly embedded:

* Python ints are modelled as `ℤ`/`ℕ` (Python ints are unbounded, so no
  wrap-around is involved);
* Python float arithmetic (the `_ms_sum / _ms_count` average, the
  `int(one_year_ago + i * span / (n_scans - 1))` timestamps, and the
  log-uniform size sampler) is modelled by exact rational/real arithmetic;
  `int()` truncation of the non-negative quantities involved is floor;
* Python dicts are modelled as association lists in insertion order, and
  Python sets of strings as lists with membership-respecting insertion;
* the `random` draws consumed by a function are passed to it as explicit
  arguments, and the clock value read via `time.time()` is an explicit
  `now` argument.
-/

/-- A synthetic file record, as built by `seed` and consumed by
`build_by_kind_json` / `make_scan_history`: kind tag, size in bytes,
optional extraction duration, and indexing timestamp. -/
structure FileRec where
  kind : String
  size : ℤ
  extract_ms : Option ℤ
  indexed_at : ℤ
deriving DecidableEq, Repr

/-- The in-progress accumulator entry of `build_by_kind_json`:
the fields `count`, `size`, `_ms_sum`, `_ms_count` of the Python dict. -/
structure AggEntry where
  count : ℕ
  size : ℤ
  ms_sum : ℤ
  ms_count : ℕ
deriving DecidableEq, Repr

/-- The finalised per-kind statistics record
`{"count": …, "size": …, "avg_extract_ms": …}` of `build_by_kind_json`;
the float average is modelled exactly in `ℚ`, `None` as `none`. -/
structure KindStats where
  count : ℕ
  size : ℤ
  avg_extract_ms : Option ℚ
deriving DecidableEq, Repr

/-- Association-list lookup, the model of Python dict indexing
(first binding of the key wins). -/
def alookup {α : Type _} : List (String × α) → String → Option α
  | [], _ => none
  | (k, v) :: rest, key => if k = key then some v else alookup rest key

/-- The freshly initialised accumulator entry
`{"count": 0, "size": 0, "avg_extract_ms": None, "_ms_sum": 0, "_ms_count": 0}`. -/
def zeroEntry : AggEntry := ⟨0, 0, 0, 0⟩

/-- One loop iteration of `build_by_kind_json` applied to the entry of the
record's kind: increment `count`, add `size`, and fold `extract_ms` into
`_ms_sum` / `_ms_count` when it is present. -/
def bumpEntry (e : AggEntry) (f : FileRec) : AggEntry :=
  { count := e.count + 1
    size := e.size + f.size
    ms_sum := match f.extract_ms with
      | some m => e.ms_sum + m
      | none => e.ms_sum
    ms_count := match f.extract_ms with
      | some _ => e.ms_count + 1
      | none => e.ms_count }

/-- Process one record into the accumulator dict: create the entry of the
record's kind when absent (`if k not in agg`), then bump it in place.
Insertion order of the Python dict is preserved by the association list. -/
def addToAgg : List (String × AggEntry) → FileRec → List (String × AggEntry)
  | [], f => [(f.kind, bumpEntry zeroEntry f)]
  | (k, e) :: rest, f =>
      if k = f.kind then (k, bumpEntry e f) :: rest
      else (k, e) :: addToAgg rest f

/-- The accumulation loop of `build_by_kind_json` over the whole record list. -/
def buildAgg (files : List FileRec) : List (String × AggEntry) :=
  files.foldl addToAgg []

/-- The finalisation step of `build_by_kind_json`:
`avg = _ms_sum / _ms_count if _ms_count > 0 else None`. -/
def finalizeEntry (e : AggEntry) : KindStats :=
  { count := e.count
    size := e.size
    avg_extract_ms :=
      if 0 < e.ms_count then some ((e.ms_sum : ℚ) / (e.ms_count : ℚ)) else none }

/-- `build_by_kind_json` from `seed-demo-db.py`: aggregate the records by
kind into `{count, size, avg_extract_ms}` statistics.  The JSON
serialisation of the resulting dict is modelled as the association list
itself, in insertion order. -/
def build_by_kind_json (files : List FileRec) : List (String × KindStats) :=
  (buildAgg files).map (fun p => (p.1, finalizeEntry p.2))

/-- Specification quantity: the number of records of kind `k`. -/
def kindCount (files : List FileRec) (k : String) : ℕ :=
  (files.filter (fun f => f.kind = k)).length

/-- Specification quantity: the total size of the records of kind `k`. -/
def kindSize (files : List FileRec) (k : String) : ℤ :=
  ((files.filter (fun f => f.kind = k)).map FileRec.size).sum

/-- Specification quantity: the extraction times present among the records
of kind `k`. -/
def kindMs (files : List FileRec) (k : String) : List ℤ :=
  (files.filter (fun f => f.kind = k)).filterMap FileRec.extract_ms

/-- Lifting of `bumpEntry` to an optional accumulator entry:
an absent entry is initialised to `zeroEntry` first. -/
def bumpO (o : Option AggEntry) (f : FileRec) : Option AggEntry :=
  some (bumpEntry (o.getD zeroEntry) f)

theorem alookup_addToAgg (agg : List (String × AggEntry)) (f : FileRec) (k : String) :
    alookup (addToAgg agg f) k =
      if f.kind = k then bumpO (alookup agg k) f else alookup agg k := by
  induction agg with
  | nil =>
      by_cases h : f.kind = k <;> simp [addToAgg, alookup, bumpO, h]
  | cons p rest ih =>
      obtain ⟨ka, e⟩ := p
      simp only [addToAgg]
      by_cases h1 : ka = f.kind
      · rw [if_pos h1]
        by_cases h2 : ka = k
        · subst h2
          simp [alookup, bumpO, ← h1]
        · have hf : ¬ f.kind = k := fun hh => h2 (h1.trans hh)
          simp [alookup, h2, hf]
      · rw [if_neg h1]
        by_cases h2 : ka = k
        · have hf : ¬ f.kind = k := fun hh => h1 (h2.trans hh.symm)
          simp [alookup, h2, hf]
        · simp [alookup, h2, ih]

theorem alookup_foldl_addToAgg (files : List FileRec)
    (agg : List (String × AggEntry)) (k : String) :
    alookup (files.foldl addToAgg agg) k =
      (files.filter (fun f => f.kind = k)).foldl bumpO (alookup agg k) := by
  induction files generalizing agg with
  | nil => rfl
  | cons f rest ih =>
      rw [List.foldl_cons, ih]
      by_cases h : f.kind = k
      · rw [List.filter_cons_of_pos (by simp [h]), List.foldl_cons,
          alookup_addToAgg, if_pos h]
      · rw [List.filter_cons_of_neg (by simp [h]), alookup_addToAgg, if_neg h]

theorem foldl_bumpEntry (l : List FileRec) (e : AggEntry) :
    l.foldl bumpEntry e =
      { count := e.count + l.length
        size := e.size + (l.map FileRec.size).sum
        ms_sum := e.ms_sum + (l.filterMap FileRec.extract_ms).sum
        ms_count := e.ms_count + (l.filterMap FileRec.extract_ms).length } := by
  induction l generalizing e with
  | nil => simp
  | cons f rest ih =>
      rw [List.foldl_cons, ih (bumpEntry e f)]
      cases hm : f.extract_ms with
      | none =>
          simp only [bumpEntry, hm, List.length_cons, List.map_cons, List.sum_cons,
            List.filterMap_cons, AggEntry.mk.injEq]
          exact ⟨by omega, by omega, trivial, trivial⟩
      | some m =>
          simp only [bumpEntry, hm, List.length_cons, List.map_cons, List.sum_cons,
            List.filterMap_cons, AggEntry.mk.injEq]
          exact ⟨by omega, by omega, by omega, by omega⟩

theorem foldl_bumpO_some (l : List FileRec) (e : AggEntry) :
    l.foldl bumpO (some e) = some (l.foldl bumpEntry e) := by
  induction l generalizing e with
  | nil => rfl
  | cons f rest ih => simp [bumpO, ih]

theorem foldl_bumpO_none (l : List FileRec) (h : l ≠ []) :
    l.foldl bumpO none =
      some { count := l.length
             size := (l.map FileRec.size).sum
             ms_sum := (l.filterMap FileRec.extract_ms).sum
             ms_count := (l.filterMap FileRec.extract_ms).length } := by
  cases l with
  | nil => exact absurd rfl h
  | cons f rest =>
      have h1 : bumpO none f = some (bumpEntry zeroEntry f) := rfl
      rw [List.foldl_cons, h1, foldl_bumpO_some, foldl_bumpEntry]
      cases hm : f.extract_ms with
      | none =>
          simp only [bumpEntry, zeroEntry, hm, List.length_cons, List.map_cons,
            List.sum_cons, List.filterMap_cons, Option.some.injEq, AggEntry.mk.injEq]
          refine ⟨by omega, by omega, by omega, by omega⟩
      | some m =>
          simp only [bumpEntry, zeroEntry, hm, List.length_cons, List.map_cons,
            List.sum_cons, List.filterMap_cons, Option.some.injEq, AggEntry.mk.injEq]
          refine ⟨by omega, by omega, by omega, by omega⟩

theorem alookup_map_snd {α β : Type _} (g : α → β) (l : List (String × α)) (k : String) :
    alookup (l.map (fun p => (p.1, g p.2))) k = (alookup l k).map g := by
  induction l with
  | nil => rfl
  | cons p rest ih =>
      obtain ⟨ka, v⟩ := p
      by_cases h : ka = k <;> simp [alookup, h, ih]

theorem keys_map_snd {α β : Type _} (g : α → β) (l : List (String × α)) :
    (l.map (fun p => (p.1, g p.2))).map Prod.fst = l.map Prod.fst := by
  induction l with
  | nil => rfl
  | cons p rest ih => simp [ih]

theorem keys_addToAgg (agg : List (String × AggEntry)) (f : FileRec) :
    (addToAgg agg f).map Prod.fst =
      if f.kind ∈ agg.map Prod.fst then agg.map Prod.fst
      else agg.map Prod.fst ++ [f.kind] := by
  induction agg with
  | nil => simp [addToAgg]
  | cons p rest ih =>
      obtain ⟨ka, e⟩ := p
      by_cases h : ka = f.kind
      · subst h
        simp [addToAgg, List.mem_cons]
      · have hne : ¬ f.kind = ka := fun hh => h hh.symm
        simp only [addToAgg, if_neg h, List.map_cons, ih, List.mem_cons]
        by_cases h2 : f.kind ∈ rest.map Prod.fst
        · simp [h2, hne]
        · simp [h2, hne]

theorem mem_keys_foldl (files : List FileRec) (agg : List (String × AggEntry))
    (k : String) :
    k ∈ (files.foldl addToAgg agg).map Prod.fst ↔
      k ∈ agg.map Prod.fst ∨ k ∈ files.map FileRec.kind := by
  induction files generalizing agg with
  | nil => simp
  | cons f rest ih =>
      rw [List.foldl_cons, ih, keys_addToAgg]
      by_cases h : f.kind ∈ agg.map Prod.fst
      · rw [if_pos h]
        simp only [List.map_cons, List.mem_cons]
        constructor
        · rintro (hk | hk) <;> tauto
        · rintro (hk | hk | hk)
          · tauto
          · exact Or.inl (hk ▸ h)
          · tauto
      · rw [if_neg h]
        simp only [List.map_cons, List.mem_cons, List.mem_append,
          List.mem_singleton]
        tauto

theorem nodup_keys_addToAgg (agg : List (String × AggEntry)) (f : FileRec)
    (h : (agg.map Prod.fst).Nodup) : ((addToAgg agg f).map Prod.fst).Nodup := by
  rw [keys_addToAgg]
  by_cases h2 : f.kind ∈ agg.map Prod.fst
  · rwa [if_pos h2]
  · rw [if_neg h2, List.nodup_append]
    refine ⟨h, List.nodup_singleton _, ?_⟩
    intro x hx hxf
    rw [List.mem_singleton] at hxf
    exact h2 (hxf ▸ hx)

theorem nodup_keys_foldl (files : List FileRec) (agg : List (String × AggEntry))
    (h : (agg.map Prod.fst).Nodup) :
    ((files.foldl addToAgg agg).map Prod.fst).Nodup := by
  induction files generalizing agg with
  | nil => exact h
  | cons f rest ih =>
      rw [List.foldl_cons]
      exact ih (addToAgg agg f) (nodup_keys_addToAgg agg f h)

/-- C1.  `build_by_kind_json` produces a mapping whose keys are exactly the
kinds occurring in the record list (each key once), and the entry of each
kind `k` carries the number of records of kind `k`, the sum of their sizes,
and the arithmetic mean of the extraction times that are present —
`none` when no record of kind `k` has one. -/
theorem build_by_kind_json_correct (files : List FileRec) (k : String) :
    (k ∈ (build_by_kind_json files).map Prod.fst ↔ k ∈ files.map FileRec.kind) ∧
    ((build_by_kind_json files).map Prod.fst).Nodup ∧
    ∀ s : KindStats, alookup (build_by_kind_json files) k = some s →
      s.count = kindCount files k ∧
      s.size = kindSize files k ∧
      s.avg_extract_ms =
        (if 0 < (kindMs files k).length
         then some (((kindMs files k).sum : ℚ) / ((kindMs files k).length : ℚ))
         else none) := by
  refine ⟨?_, ?_, ?_⟩
  · rw [build_by_kind_json, keys_map_snd, buildAgg, mem_keys_foldl]
    simp
  · rw [build_by_kind_json, keys_map_snd, buildAgg]
    exact nodup_keys_foldl files [] List.nodup_nil
  · intro s hs
    rw [build_by_kind_json, alookup_map_snd, buildAgg, alookup_foldl_addToAgg] at hs
    have hnil : alookup ([] : List (String × AggEntry)) k = none := rfl
    rw [hnil] at hs
    by_cases hemp : files.filter (fun f => f.kind = k) = []
    · rw [hemp] at hs
      simp [alookup] at hs
    · rw [foldl_bumpO_none _ hemp] at hs
      simp only [alookup, Option.map_some', Option.some.injEq] at hs
      subst hs
      refine ⟨rfl, rfl, ?_⟩
      simp only [finalizeEntry, kindMs]

/-- Witness for C1 at a concrete record list: one text record of size 10
with extraction time 4. -/
theorem build_by_kind_json_correct_witness :
    (⟨1, 10, some 4⟩ : KindStats).count = kindCount [⟨"text", 10, some 4, 0⟩] "text" ∧
    (⟨1, 10, some 4⟩ : KindStats).size = kindSize [⟨"text", 10, some 4, 0⟩] "text" ∧
    (⟨1, 10, some 4⟩ : KindStats).avg_extract_ms =
      (if 0 < (kindMs [⟨"text", 10, some 4, 0⟩] "text").length
       then some (((kindMs [⟨"text", 10, some 4, 0⟩] "text").sum : ℚ) /
         ((kindMs [⟨"text", 10, some 4, 0⟩] "text").length : ℚ))
       else none) :=
  (build_by_kind_json_correct [⟨"text", 10, some 4, 0⟩] "text").2.2
    ⟨1, 10, some 4⟩ (by
      norm_num [build_by_kind_json, buildAgg, addToAgg, finalizeEntry,
        bumpEntry, zeroEntry, alookup])

/-- The quantity `one_year_ago = now - 365 * 86400` of `make_scan_history`
and `seed`; `now` is the `int(time.time())` clock reading, passed
explicitly. -/
def one_year_ago (now : ℤ) : ℤ := now - 365 * 86400

/-- The `i`-th scan timestamp
`int(one_year_ago + i * (now - one_year_ago) / (n_scans - 1))` of
`make_scan_history`.  Since `now - one_year_ago = 31536000` exactly, the
float expression is the integer `one_year_ago` plus the non-negative
rational `i * 31536000 / (n_scans - 1)`, and `int()` truncation of the sum
is `one_year_ago` plus the floor of that rational, i.e. plus the natural
division (for any clock value `now ≥ 0`, as returned by `time.time()`). -/
def scan_time (now : ℤ) (n_scans : ℕ) (i : ℕ) : ℤ :=
  one_year_ago now + ((i * 31536000) / (n_scans - 1) : ℕ)

/-- The list `scan_times` of `make_scan_history`. -/
def scan_times (now : ℤ) (n_scans : ℕ) : List ℤ :=
  (List.range n_scans).map (scan_time now n_scans)

/-- One row of the synthetic `scan_history`: timestamp, total file count,
total size, and the per-kind aggregate blob. -/
structure ScanPoint where
  scanned_at : ℤ
  total_files : ℕ
  total_size : ℤ
  by_kind : List (String × KindStats)
deriving DecidableEq, Repr

/-- The local variable `visible` of `make_scan_history`: the records
indexed at or before `ts`. -/
def visibleAt (files : List FileRec) (ts : ℤ) : List FileRec :=
  files.filter (fun f => f.indexed_at ≤ ts)

/-- `make_scan_history` from `seed-demo-db.py`: one point per scan
timestamp whose visible set is non-empty (`if not visible: continue`),
carrying the count, total size and by-kind aggregation of the visible
records. -/
def make_scan_history (now : ℤ) (all_files : List FileRec) (n_scans : ℕ) :
    List ScanPoint :=
  (scan_times now n_scans).filterMap (fun ts =>
    if (visibleAt all_files ts).isEmpty then none
    else some { scanned_at := ts
                total_files := (visibleAt all_files ts).length
                total_size := ((visibleAt all_files ts).map FileRec.size).sum
                by_kind := build_by_kind_json (visibleAt all_files ts) })

/-- C2.  Every point produced by `make_scan_history` aggregates exactly the
records whose `indexed_at` is at most its timestamp: `total_files` counts
them, `total_size` sums their sizes, and `by_kind` is the aggregation of
`build_by_kind_json` over exactly those records. -/
theorem make_scan_history_points (now : ℤ) (files : List FileRec) (n : ℕ) :
    ∀ p ∈ make_scan_history now files n,
      p.total_files =
        (files.filter (fun f => f.indexed_at ≤ p.scanned_at)).length ∧
      p.total_size =
        ((files.filter (fun f => f.indexed_at ≤ p.scanned_at)).map
          FileRec.size).sum ∧
      p.by_kind =
        build_by_kind_json
          (files.filter (fun f => f.indexed_at ≤ p.scanned_at)) := by
  intro p hp
  rw [make_scan_history, List.mem_filterMap] at hp
  obtain ⟨ts, hts, heq⟩ := hp
  by_cases h : (visibleAt files ts).isEmpty
  · rw [if_pos h] at heq
    exact absurd heq (by simp)
  · rw [if_neg h] at heq
    injection heq with h2
    subst h2
    exact ⟨rfl, rfl, rfl⟩

/-- Witness for C2 at a concrete input: one image record (no extraction
time) visible at the first of two scan timestamps. -/
theorem make_scan_history_points_witness :
    (⟨0, 1, 7, [("image", ⟨1, 7, none⟩)]⟩ : ScanPoint).total_files =
      ([⟨"image", 7, none, 0⟩].filter (fun f => FileRec.indexed_at f ≤
        (⟨0, 1, 7, [("image", ⟨1, 7, none⟩)]⟩ : ScanPoint).scanned_at)).length ∧
    (⟨0, 1, 7, [("image", ⟨1, 7, none⟩)]⟩ : ScanPoint).total_size =
      (([⟨"image", 7, none, 0⟩].filter (fun f => FileRec.indexed_at f ≤
        (⟨0, 1, 7, [("image", ⟨1, 7, none⟩)]⟩ : ScanPoint).scanned_at)).map
          FileRec.size).sum ∧
    (⟨0, 1, 7, [("image", ⟨1, 7, none⟩)]⟩ : ScanPoint).by_kind =
      build_by_kind_json
        ([⟨"image", 7, none, 0⟩].filter (fun f => FileRec.indexed_at f ≤
          (⟨0, 1, 7, [("image", ⟨1, 7, none⟩)]⟩ : ScanPoint).scanned_at)) :=
  make_scan_history_points 31536000 [⟨"image", 7, none, 0⟩] 2
    ⟨0, 1, 7, [("image", ⟨1, 7, none⟩)]⟩ (by decide)

/-- Counterexample to C3 as stated.  With no file records at all,
`make_scan_history` skips every timestamp (`if not visible: continue`) and
returns 0 points, not `n_scans = 24`; and even the candidate timestamp
grid is not exactly evenly spaced: integer truncation makes consecutive
gaps differ by one second (here the gap from point 2 to point 3 differs
from the gap from point 0 to point 1). -/
theorem make_scan_history_count_counterexample :
    (make_scan_history 31536000 [] 24).length ≠ 24 ∧
    ¬ (scan_time 31536000 24 3 - scan_time 31536000 24 2 =
       scan_time 31536000 24 1 - scan_time 31536000 24 0) := by
  decide

theorem filter_length_mono {α : Type _} (l : List α) (p q : α → Bool)
    (h : ∀ a, p a = true → q a = true) :
    (l.filter p).length ≤ (l.filter q).length :=
  (List.monotone_filter_right l h).length_le

/-- C3 (amended).  For `2 ≤ n_scans`, `make_scan_history` builds `n_scans`
candidate timestamps spanning the year before `now`: the first is exactly
one year before `now`, the last is exactly `now`, and consecutive gaps all
equal `31536000 / (n_scans - 1)` up to the one second lost to integer
truncation.  It returns at most `n_scans` points — one per candidate
timestamp at which at least one record is visible, the rest are skipped. -/
theorem make_scan_history_spacing (now : ℤ) (files : List FileRec) (n : ℕ)
    (h : 2 ≤ n) :
    (make_scan_history now files n).length ≤ n ∧
    (∀ p ∈ make_scan_history now files n, p.scanned_at ∈ scan_times now n) ∧
    (scan_times now n).length = n ∧
    scan_time now n 0 = one_year_ago now ∧
    scan_time now n (n - 1) = now ∧
    (∀ i : ℕ,
      ((31536000 / (n - 1) : ℕ) : ℤ) ≤
        scan_time now n (i + 1) - scan_time now n i ∧
      scan_time now n (i + 1) - scan_time now n i ≤
        ((31536000 / (n - 1) : ℕ) : ℤ) + 1) := by
  have hd : 0 < n - 1 := by omega
  refine ⟨?_, ?_, ?_, ?_, ?_, ?_⟩
  · calc (make_scan_history now files n).length
        ≤ (scan_times now n).length := List.length_filterMap_le _ _
      _ = n := by simp [scan_times]
  · intro p hp
    rw [make_scan_history, List.mem_filterMap] at hp
    obtain ⟨ts, hts, heq⟩ := hp
    by_cases hv : (visibleAt files ts).isEmpty
    · rw [if_pos hv] at heq
      exact absurd heq (by simp)
    · rw [if_neg hv] at heq
      injection heq with h2
      subst h2
      exact hts
  · simp [scan_times]
  · simp [scan_time]
  · have hcancel : (n - 1) * 31536000 / (n - 1) = 31536000 :=
      Nat.mul_div_cancel_left _ hd
    simp only [scan_time, one_year_ago, hcancel]
    push_cast
    ring
  · intro i
    have hmul : (i + 1) * 31536000 = i * 31536000 + 31536000 := by ring
    have hdiv := Nat.add_div (a := i * 31536000) (b := 31536000) hd
    simp only [scan_time, hmul, one_year_ago, hdiv]
    split_ifs with hif
    · constructor
      · push_cast
        linarith
      · push_cast
        linarith
    · constructor
      · push_cast
        linarith
      · push_cast
        linarith

/-- Witness for C3 (amended) at `now = 31536000`, one record, two scans. -/
theorem make_scan_history_spacing_witness :
    2 ≤ 2 ∧
    ((make_scan_history 31536000 [⟨"text", 5, none, 0⟩] 2).length ≤ 2 ∧
     (∀ p ∈ make_scan_history 31536000 [⟨"text", 5, none, 0⟩] 2,
        p.scanned_at ∈ scan_times 31536000 2) ∧
     (scan_times 31536000 2).length = 2 ∧
     scan_time 31536000 2 0 = one_year_ago 31536000 ∧
     scan_time 31536000 2 (2 - 1) = 31536000 ∧
     (∀ i : ℕ,
       ((31536000 / (2 - 1) : ℕ) : ℤ) ≤
         scan_time 31536000 2 (i + 1) - scan_time 31536000 2 i ∧
       scan_time 31536000 2 (i + 1) - scan_time 31536000 2 i ≤
         ((31536000 / (2 - 1) : ℕ) : ℤ) + 1)) :=
  ⟨by decide, make_scan_history_spacing 31536000 [⟨"text", 5, none, 0⟩] 2 (by decide)⟩

/-- C4.  Among the points returned by `make_scan_history`, ordered by
`scanned_at`, the `total_files` values are monotonically non-decreasing:
any point with the later (or equal) timestamp counts at least as many
records. -/
theorem make_scan_history_total_files_mono (now : ℤ) (files : List FileRec)
    (n : ℕ) :
    ∀ p ∈ make_scan_history now files n, ∀ q ∈ make_scan_history now files n,
      p.scanned_at ≤ q.scanned_at → p.total_files ≤ q.total_files := by
  intro p hp q hq hle
  obtain ⟨h1, -, -⟩ := make_scan_history_points now files n p hp
  obtain ⟨h2, -, -⟩ := make_scan_history_points now files n q hq
  rw [h1, h2]
  refine filter_length_mono files _ _ ?_
  intro f hf
  simp only [decide_eq_true_eq] at hf ⊢
  exact hf.trans hle

/-- Witness for C4 at a concrete input: the two points produced for one
record over two scans, compared with themselves and with each other. -/
theorem make_scan_history_total_files_mono_witness :
    (⟨0, 1, 5, [("text", ⟨1, 5, none⟩)]⟩ : ScanPoint).total_files ≤
      (⟨31536000, 1, 5, [("text", ⟨1, 5, none⟩)]⟩ : ScanPoint).total_files :=
  make_scan_history_total_files_mono 31536000 [⟨"text", 5, none, 0⟩] 2
    ⟨0, 1, 5, [("text", ⟨1, 5, none⟩)]⟩ (by decide)
    ⟨31536000, 1, 5, [("text", ⟨1, 5, none⟩)]⟩ (by decide)
    (by decide)

/-- The `KIND_SIZE_RANGE` table of `seed-demo-db.py`:
`(min_bytes, max_bytes)` per kind, in source order. -/
def KIND_SIZE_RANGE : List (String × ℕ × ℕ) :=
  [("text",       (512,        500000)),
   ("image",      (80000,    25000000)),
   ("video",      (5000000, 4000000000)),
   ("audio",      (2000000,   80000000)),
   ("pdf",        (50000,    30000000)),
   ("archive",    (10000,   500000000)),
   ("document",   (20000,     5000000)),
   ("binary",     (4000,    200000000)),
   ("executable", (50000,   250000000)),
   ("unknown",    (100,       1000000))]

/-- `pick_size` from `seed-demo-db.py`:
`int(math.exp(random.uniform(math.log(lo), math.log(hi))))`.
The uniform draw `random.uniform(a, b) = a + u * (b - a)` is modelled by
its unit sample `u ∈ [0, 1]`, float arithmetic by exact reals, and `int()`
truncation by the floor (the argument of `int()` is at least
`lo ≥ 100 > 0`, where truncation and floor agree).  A kind outside the
table (a Python `KeyError`) yields `none`. -/
noncomputable def pick_size (kind : String) (u : ℝ) : Option ℤ :=
  (alookup KIND_SIZE_RANGE kind).map (fun r =>
    ⌊Real.exp (Real.log (r.1 : ℝ) +
      u * (Real.log (r.2 : ℝ) - Real.log (r.1 : ℝ)))⌋)

theorem alookup_mem {α : Type _} {l : List (String × α)} {k : String} {v : α}
    (h : alookup l k = some v) : (k, v) ∈ l := by
  induction l with
  | nil => exact absurd h (by simp [alookup])
  | cons p rest ih =>
      obtain ⟨ka, w⟩ := p
      by_cases hk : ka = k
      · subst hk
        simp only [alookup, eq_self_iff_true, if_true, Option.some.injEq] at h
        subst h
        exact List.mem_cons_self _ _
      · simp only [alookup, if_neg hk] at h
        exact List.mem_cons_of_mem _ (ih h)

theorem KIND_SIZE_RANGE_sane (kind : String) (lo hi : ℕ)
    (h : alookup KIND_SIZE_RANGE kind = some (lo, hi)) : 0 < lo ∧ lo ≤ hi := by
  have hm := alookup_mem h
  simp only [KIND_SIZE_RANGE, List.mem_cons, Prod.mk.injEq,
    List.not_mem_nil, or_false] at hm
  rcases hm with ⟨-, rfl, rfl⟩ | ⟨-, rfl, rfl⟩ | ⟨-, rfl, rfl⟩ | ⟨-, rfl, rfl⟩ |
    ⟨-, rfl, rfl⟩ | ⟨-, rfl, rfl⟩ | ⟨-, rfl, rfl⟩ | ⟨-, rfl, rfl⟩ |
    ⟨-, rfl, rfl⟩ | ⟨-, rfl, rfl⟩ <;> norm_num

/-- C5.  For every kind in `KIND_SIZE_RANGE` and every outcome of the
uniform draw, the size returned by `pick_size` lies within the kind's
`(min_bytes, max_bytes)` range. -/
theorem pick_size_in_range (kind : String) (lo hi : ℕ) (u : ℝ) (s : ℤ)
    (hk : alookup KIND_SIZE_RANGE kind = some (lo, hi))
    (h0 : 0 ≤ u) (h1 : u ≤ 1)
    (hs : pick_size kind u = some s) :
    (lo : ℤ) ≤ s ∧ s ≤ (hi : ℤ) := by
  obtain ⟨hlo, hlohi⟩ := KIND_SIZE_RANGE_sane kind lo hi hk
  rw [pick_size, hk, Option.map_some'] at hs
  have hs2 := Option.some.inj hs
  have hllo : (0:ℝ) < (lo : ℝ) := by exact_mod_cast hlo
  have hlhi : (0:ℝ) < (hi : ℝ) :=
    lt_of_lt_of_le hllo (by exact_mod_cast hlohi)
  have hlog : Real.log (lo : ℝ) ≤ Real.log (hi : ℝ) :=
    Real.log_le_log hllo (by exact_mod_cast hlohi)
  have harg1 : Real.log (lo : ℝ) ≤
      Real.log (lo : ℝ) + u * (Real.log (hi : ℝ) - Real.log (lo : ℝ)) := by
    nlinarith
  have harg2 : Real.log (lo : ℝ) + u * (Real.log (hi : ℝ) - Real.log (lo : ℝ)) ≤
      Real.log (hi : ℝ) := by
    nlinarith
  constructor
  · rw [← hs2, Int.le_floor]
    calc ((lo : ℤ) : ℝ) = (lo : ℝ) := by push_cast; ring
      _ = Real.exp (Real.log (lo : ℝ)) := (Real.exp_log hllo).symm
      _ ≤ _ := Real.exp_le_exp.mpr harg1
  · rw [← hs2]
    have hfle := Int.floor_le (Real.exp (Real.log (lo : ℝ) +
      u * (Real.log (hi : ℝ) - Real.log (lo : ℝ))))
    have hexp : Real.exp (Real.log (lo : ℝ) +
        u * (Real.log (hi : ℝ) - Real.log (lo : ℝ))) ≤ (hi : ℝ) := by
      calc Real.exp _ ≤ Real.exp (Real.log (hi : ℝ)) := Real.exp_le_exp.mpr harg2
        _ = (hi : ℝ) := Real.exp_log hlhi
    have hc : ((⌊Real.exp (Real.log (lo : ℝ) +
        u * (Real.log (hi : ℝ) - Real.log (lo : ℝ)))⌋ : ℤ) : ℝ) ≤ (hi : ℝ) :=
      le_trans hfle hexp
    exact_mod_cast hc

theorem pick_size_at_zero : pick_size "text" 0 = some 512 := by
  have hk : alookup KIND_SIZE_RANGE "text" = some (512, 500000) := by decide
  rw [pick_size, hk, Option.map_some']
  congr 1
  rw [zero_mul, add_zero, Real.exp_log (by positivity), Int.floor_natCast]
  norm_num

/-- Witness for C5: the text kind at unit sample 0 yields exactly the
minimum size 512, which lies in the range. -/
theorem pick_size_in_range_witness :
    alookup KIND_SIZE_RANGE "text" = some (512, 500000) ∧
    ((0:ℝ) ≤ 0 ∧ (0:ℝ) ≤ 1) ∧
    pick_size "text" 0 = some 512 ∧
    (((512 : ℕ) : ℤ) ≤ 512 ∧ (512 : ℤ) ≤ ((500000 : ℕ) : ℤ)) :=
  ⟨by decide, ⟨le_refl 0, by norm_num⟩, pick_size_at_zero,
    pick_size_in_range "text" 512 500000 0 512 (by decide) (le_refl 0)
      (by norm_num) pick_size_at_zero⟩

/-- Counterexample to C6 as stated.  A complete run derives `now` from
`time.time()` and builds the scan history from it, so two runs with the
same seed (hence the same record draws — here the same record list) and
the same arguments, but different clock readings, write different
scan-history rows: the timestamps of every point shift with the clock. -/
theorem seed_run_clock_counterexample :
    make_scan_history 31536000 [⟨"text", 5, none, 0⟩] 24 ≠
      make_scan_history 31622400 [⟨"text", 5, none, 0⟩] 24 := by
  decide

/-- C6 (amended).  With the clock reading and the record list (derived
from the seeded draws and the initial database contents) held equal as
well, a run is deterministic: the aggregation and the scan history are
functions of those inputs alone. -/
theorem seed_run_deterministic (now now' : ℤ) (files files' : List FileRec)
    (n n' : ℕ) (h1 : now = now') (h2 : files = files') (h3 : n = n') :
    build_by_kind_json files = build_by_kind_json files' ∧
    make_scan_history now files n = make_scan_history now' files' n' := by
  subst h1
  subst h2
  subst h3
  exact ⟨rfl, rfl⟩

/-- Witness for C6 (amended) at concrete equal inputs. -/
theorem seed_run_deterministic_witness :
    build_by_kind_json [⟨"pdf", 9, none, 3⟩] = build_by_kind_json [⟨"pdf", 9, none, 3⟩] ∧
    make_scan_history 31536000 [⟨"pdf", 9, none, 3⟩] 24 =
      make_scan_history 31536000 [⟨"pdf", 9, none, 3⟩] 24 :=
  seed_run_deterministic 31536000 31536000 [⟨"pdf", 9, none, 3⟩]
    [⟨"pdf", 9, none, 3⟩] 24 24 rfl rfl rfl

/-- Counterexample to C7 as stated.  `make_scan_history` reads the system
clock (`now = int(time.time())`): called twice with the same Python
argument (the same record list, the same `n_scans`) but at two different
clock instants, it returns different results, so it is not independent of
external state. -/
theorem make_scan_history_clock_counterexample :
    make_scan_history 31536000 [⟨"image", 20, none, 0⟩] 2 ≠
      make_scan_history 31536001 [⟨"image", 20, none, 0⟩] 2 := by
  decide

/-- C7 (amended).  `build_by_kind_json` is pure, and `make_scan_history`
is pure once the clock reading it takes via `time.time()` is counted among
its inputs: with equal record lists (and equal clock value and scan count)
both return equal results. -/
theorem helpers_pure (l l' : List FileRec) (h : l = l') :
    build_by_kind_json l = build_by_kind_json l' ∧
    ∀ (now : ℤ) (n : ℕ), make_scan_history now l n = make_scan_history now l' n := by
  subst h
  exact ⟨rfl, fun _ _ => rfl⟩

/-- Witness for C7 (amended) at a concrete record list. -/
theorem helpers_pure_witness :
    build_by_kind_json [⟨"audio", 2, none, 1⟩] = build_by_kind_json [⟨"audio", 2, none, 1⟩] ∧
    ∀ (now : ℤ) (n : ℕ), make_scan_history now [⟨"audio", 2, none, 1⟩] n =
      make_scan_history now [⟨"audio", 2, none, 1⟩] n :=
  helpers_pure [⟨"audio", 2, none, 1⟩] [⟨"audio", 2, none, 1⟩] rfl

/-- One row of the `files` table. -/
structure FilesRow where
  id : ℕ
  path : String
  mtime : ℤ
  size : ℤ
  kind : String
  indexed_at : Option ℤ
  extract_ms : Option ℤ
deriving DecidableEq, Repr

/-- One row of the `lines` table, as inserted by `seed_image_with_exif`.
Its `file_id` always references a `files` row (the script inserts it from
`files.id`), so it is modelled as a plain natural, never NULL. -/
structure LinesRow where
  file_id : ℕ
  line_number : ℕ
  chunk_archive : String
  chunk_name : String
  line_offset_in_chunk : ℕ
deriving DecidableEq, Repr

/-- The tables of one source database that the `--clear` step touches or
reads. -/
structure Db where
  files : List FilesRow
  scan_history : List ScanPoint
  lines : List LinesRow
deriving Repr

/-- The `--clear` step of `seed`:
`DELETE FROM scan_history` followed by
`DELETE FROM files WHERE id NOT IN (SELECT DISTINCT file_id FROM lines)` —
a `files` row survives exactly when some `lines` row references it. -/
def clear_step (db : Db) : Db :=
  { files := db.files.filter (fun f => db.lines.any (fun l => l.file_id == f.id))
    scan_history := []
    lines := db.lines }

/-- C8.  The clear step empties `scan_history`, leaves `lines` untouched,
deletes exactly the `files` rows referenced by no `lines` row, and keeps
the referenced rows unchanged (the kept rows are a sublist of the original
`files` rows, in order). -/
theorem clear_step_frame (db : Db) :
    (clear_step db).scan_history = [] ∧
    (clear_step db).lines = db.lines ∧
    (clear_step db).files.Sublist db.files ∧
    ∀ f : FilesRow, f ∈ (clear_step db).files ↔
      (f ∈ db.files ∧ ∃ l ∈ db.lines, l.file_id = f.id) := by
  refine ⟨rfl, rfl, List.filter_sublist _, ?_⟩
  intro f
  simp [clear_step, List.mem_filter, List.any_eq_true]

/-- The filesystem facts consulted by `main`: whether
`data_dir/sources` exists, the sorted `*.db` glob inside it, and which
database paths exist. -/
structure FsView where
  sources_dir_exists : Bool
  glob_dbs : List String
  db_file_exists : String → Bool

/-- The observable outcome of `main`: the `No sources directory` early
return, the `No .db files found` early return, or one `(path, seeded?)`
verdict per selected database — `false` meaning the
`skipping … (not found)` message. -/
inductive MainOutcome where
  | no_sources_dir : MainOutcome
  | no_db_files : MainOutcome
  | processed : List (String × Bool) → MainOutcome
deriving DecidableEq, Repr

/-- The database list `main` selects: with `--source NAME` (a non-empty
string — Python's `if args.source:` is a truthiness test) the single file
`NAME.db`, otherwise the glob results. -/
def db_list (fs : FsView) (source : Option String) : List String :=
  match source with
  | some s => if s = "" then fs.glob_dbs else [s ++ ".db"]
  | none => fs.glob_dbs

/-- Shallow embedding of the control flow of `main`. -/
def main_run (fs : FsView) (source : Option String) : MainOutcome :=
  if fs.sources_dir_exists = false then .no_sources_dir
  else if (db_list fs source).isEmpty then .no_db_files
  else .processed ((db_list fs source).map (fun p => (p, fs.db_file_exists p)))

/-- C9.  `main` has exactly three error conditions — missing sources
directory, no `.db` files selected, and a selected `.db` file that does
not exist — the first two reported by an early return, the third by
skipping that database; in the normal path every selected database is
visited exactly once, in order, with no retries. -/
theorem main_run_error_handling (fs : FsView) (source : Option String) :
    (fs.sources_dir_exists = false → main_run fs source = .no_sources_dir) ∧
    (fs.sources_dir_exists = true → db_list fs source = [] →
      main_run fs source = .no_db_files) ∧
    (fs.sources_dir_exists = true → db_list fs source ≠ [] →
      main_run fs source =
        .processed ((db_list fs source).map
          (fun p => (p, fs.db_file_exists p)))) ∧
    (∀ l, main_run fs source = .processed l →
      l.map Prod.fst = db_list fs source) := by
  refine ⟨?_, ?_, ?_, ?_⟩
  · intro h
    simp [main_run, h]
  · intro h1 h2
    simp [main_run, h1, h2]
  · intro h1 h2
    simp [main_run, h1, List.isEmpty_iff, h2]
  · intro l hl
    by_cases h1 : fs.sources_dir_exists = false
    · simp [main_run, h1] at hl
    · by_cases h2 : (db_list fs source).isEmpty
      · simp [main_run, h1, h2] at hl
      · simp only [main_run] at hl
        rw [if_neg h1, if_neg h2] at hl
        injection hl with hl2
        subst hl2
        have hcomp : (Prod.fst ∘ fun p : String => (p, fs.db_file_exists p)) = id := by
          funext p
          rfl
        rw [List.map_map, hcomp, List.map_id]

/-- Witness for C9: a view with one glob result whose file is missing is
processed as a single skipped database. -/
theorem main_run_error_handling_witness :
    main_run ⟨true, ["a.db"], fun _ => false⟩ none =
      MainOutcome.processed [("a.db", false)] :=
  (main_run_error_handling ⟨true, ["a.db"], fun _ => false⟩ none).2.2.1 rfl
    (by decide)

/-- The `KIND_DIRS` table of `seed-demo-db.py`. -/
def KIND_DIRS : List (String × List String) :=
  [("text", ["src", "src/api", "src/auth", "src/db", "src/models", "src/utils",
             "tests", "docs", "scripts", "config", "lib", "internal"]),
   ("image", ["assets/images", "assets/icons", "public/img", "photos",
              "screenshots", "media", "resources"]),
   ("video", ["recordings", "media/video", "assets/video", "tutorials"]),
   ("audio", ["media/audio", "music", "podcasts", "recordings", "assets/sounds"]),
   ("pdf", ["docs", "reports", "contracts", "invoices", "manuals", "research"]),
   ("archive", ["releases", "backups", "dist", "artifacts", "vendor"]),
   ("document", ["docs", "reports", "presentations", "specs", "proposals"]),
   ("binary", ["lib", "vendor", "bin", "data", "cache", "build"]),
   ("executable", ["bin", "dist", "build/release"]),
   ("unknown", ["data", "tmp", "cache", "misc"])]

/-- The `KIND_STEMS` table of `seed-demo-db.py`. -/
def KIND_STEMS : List (String × List String) :=
  [("text", ["main", "lib", "index", "utils", "config", "auth", "api", "db",
             "server", "client", "routes", "handler", "middleware", "schema",
             "migration", "model", "service", "controller", "test", "spec",
             "README", "CHANGELOG", "ARCHITECTURE", "Makefile", "Dockerfile",
             "deploy", "setup", "init", "parser", "lexer", "encoder", "decoder",
             "cache", "queue", "worker", "scheduler", "notifier", "webhook",
             "session", "token", "crypto"]),
   ("image", ["screenshot", "banner", "logo", "icon", "thumbnail", "avatar",
              "background", "hero", "diagram", "chart", "photo", "cover",
              "preview", "mockup", "wireframe", "IMG_0042", "IMG_1337",
              "DSC_0012", "DSC_2048", "DCIM_0099"]),
   ("video", ["demo", "tutorial", "recording", "walkthrough", "presentation",
              "screen-capture", "review", "overview", "intro", "teaser"]),
   ("audio", ["podcast-ep01", "podcast-ep02", "meeting-recording", "voiceover",
              "soundtrack", "ambient", "notification", "alert"]),
   ("pdf", ["report", "invoice", "contract", "spec", "manual", "proposal",
            "architecture", "requirements", "runbook", "sla", "terms",
            "Q1-report", "Q2-report", "Q3-report", "Q4-report"]),
   ("archive", ["backup", "release-v1.0", "release-v1.1", "dist", "vendor",
                "assets", "exports", "archive-2023", "archive-2024"]),
   ("document", ["spec", "proposal", "roadmap", "presentation", "report",
                 "onboarding", "handbook", "playbook", "meeting-notes"]),
   ("binary", ["libc", "libssl", "libcrypto", "database", "cache", "data",
               "model", "weights", "index"]),
   ("executable", ["server", "worker", "migrate", "setup", "installer"]),
   ("unknown", ["data", "output", "dump", "export", "import", "cache"])]

/-- The `KIND_EXTENSIONS` table of `seed-demo-db.py`. -/
def KIND_EXTENSIONS : List (String × List String) :=
  [("text", ["rs", "py", "ts", "js", "go", "java", "md", "txt", "yaml",
             "toml", "json", "sh", "sql", "html", "css", "rb", "cpp", "c"]),
   ("image", ["jpg", "jpeg", "png", "heic", "tiff", "raw", "cr2", "webp"]),
   ("video", ["mp4", "mkv", "mov", "avi", "m4v", "webm"]),
   ("audio", ["mp3", "flac", "m4a", "ogg", "wav", "opus"]),
   ("pdf", ["pdf"]),
   ("archive", ["zip", "tar.gz", "7z", "tgz", "tar.bz2"]),
   ("document", ["docx", "xlsx", "pptx", "epub"]),
   ("binary", ["bin", "db", "sqlite", "wasm", "so", "dylib", "ttf"]),
   ("executable", ["exe", "dll", "deb", "rpm"]),
   ("unknown", ["dat", "bak", "tmp", "cache"])]

/-- The random draws consumed by one iteration of the `pick_path` loop:
the three `random.choice` indices (arbitrary naturals, reduced modulo the
list length), the `random.random() < 0.4` verdict, and the
`random.randint(1, 99)` suffix sample. -/
structure PathDraw where
  dir_idx : ℕ
  stem_idx : ℕ
  ext_idx : ℕ
  add_suffix : Bool
  suffix_num : ℕ
deriving DecidableEq, Repr

/-- Two-digit zero padding, the `{:02d}` format of the suffix. -/
def pad2 (n : ℕ) : String :=
  if n < 10 then "0" ++ toString n else toString n

/-- `random.choice(l)`: the sampled index taken modulo the length. -/
def choiceOf (l : List String) (i : ℕ) : String :=
  l.getD (i % l.length) ""

/-- The (possibly suffixed) `stem` variable at the end of one loop
iteration of `pick_path`; `randint(1, 99)` is modelled as
`1 + suffix_num % 99`. -/
def mk_stem (stems : List String) (d : PathDraw) : String :=
  if d.add_suffix
  then choiceOf stems d.stem_idx ++ "-" ++ pad2 (1 + d.suffix_num % 99)
  else choiceOf stems d.stem_idx

/-- The `ext` variable of one loop iteration; the source's
`ext_raw if "." not in ext_raw else ext_raw` is the identity on the drawn
extension. -/
def mk_ext (exts : List String) (d : PathDraw) : String :=
  choiceOf exts d.ext_idx

/-- The candidate path assembled by one loop iteration of `pick_path`. -/
def mk_candidate (dirs stems exts : List String) (d : PathDraw) : String :=
  choiceOf dirs d.dir_idx ++ "/" ++ mk_stem stems d ++ "." ++ mk_ext exts d

/-- The fallback path built after the loop: a fresh directory draw and a
`randint(1000, 9999)` suffix (modelled as `1000 + fb_num % 9000`), but the
stem and extension leak out of the last loop iteration. -/
def mk_fallback (dirs stems exts : List String) (d : PathDraw)
    (fb_dir fb_num : ℕ) : String :=
  choiceOf dirs fb_dir ++ "/" ++ mk_stem stems d ++ "-" ++
    toString (1000 + fb_num % 9000) ++ "." ++ mk_ext exts d

/-- The retry loop of `pick_path` (`for _ in range(100)` corresponds to a
draw list of length 100): return the first candidate not in `used`, adding
it to the set; when every candidate collides, build the fallback from the
last iteration's stem and extension and add and return it with no
freshness check.  The `used` set is modelled as a list with
`List.insert` as `set.add`.  (The source always supplies 100 draws, so the
empty-draw case is unreachable.) -/
def pick_path_core (dirs stems exts : List String) (fb_dir fb_num : ℕ) :
    List PathDraw → List String → String × List String
  | [], used => ("", used)
  | [d], used =>
      if mk_candidate dirs stems exts d ∈ used then
        (mk_fallback dirs stems exts d fb_dir fb_num,
         List.insert (mk_fallback dirs stems exts d fb_dir fb_num) used)
      else
        (mk_candidate dirs stems exts d,
         List.insert (mk_candidate dirs stems exts d) used)
  | d :: d2 :: rest, used =>
      if mk_candidate dirs stems exts d ∈ used then
        pick_path_core dirs stems exts fb_dir fb_num (d2 :: rest) used
      else
        (mk_candidate dirs stems exts d,
         List.insert (mk_candidate dirs stems exts d) used)

/-- `pick_path` from `seed-demo-db.py`, with the random draws explicit; a
kind outside the tables (a Python `KeyError`) yields `none`. -/
def pick_path (kind : String) (draws : List PathDraw) (fb_dir fb_num : ℕ)
    (used : List String) : Option (String × List String) :=
  match alookup KIND_DIRS kind, alookup KIND_STEMS kind,
      alookup KIND_EXTENSIONS kind with
  | some dirs, some stems, some exts =>
      some (pick_path_core dirs stems exts fb_dir fb_num draws used)
  | _, _, _ => none

/-- The candidate path of one draw for a given kind, resolving the three
tables. -/
def kind_candidate (kind : String) (d : PathDraw) : Option String :=
  match alookup KIND_DIRS kind, alookup KIND_STEMS kind,
      alookup KIND_EXTENSIONS kind with
  | some dirs, some stems, some exts => some (mk_candidate dirs stems exts d)
  | _, _, _ => none

/-- Counterexample to C10 as stated.  When all 100 candidates collide with
`used` and the fallback path is itself in `used`, `pick_path` returns a
path that was already a member of `used` (and `set.add` leaves the set
unchanged): 100 identical draws produce the candidate `src/main.rs` and
the fallback `src/main-1000.rs`, both already used. -/
theorem pick_path_counterexample :
    pick_path "text" (List.replicate 100 ⟨0, 0, 0, false, 0⟩) 0 0
        ["src/main.rs", "src/main-1000.rs"] =
      some ("src/main-1000.rs", ["src/main.rs", "src/main-1000.rs"]) ∧
    "src/main-1000.rs" ∈ ["src/main.rs", "src/main-1000.rs"] := by
  constructor
  · decide
  · decide

theorem pick_path_core_fresh (dirs stems exts : List String)
    (fb_dir fb_num : ℕ) (draws : List PathDraw) (used : List String)
    (h : ∃ d ∈ draws, mk_candidate dirs stems exts d ∉ used) :
    (pick_path_core dirs stems exts fb_dir fb_num draws used).1 ∉ used ∧
    (pick_path_core dirs stems exts fb_dir fb_num draws used).2 =
      (pick_path_core dirs stems exts fb_dir fb_num draws used).1 :: used := by
  induction draws with
  | nil => simp at h
  | cons d rest ih =>
      cases rest with
      | nil =>
          obtain ⟨d2, hd2, hfresh⟩ := h
          rw [List.mem_singleton] at hd2
          subst hd2
          simp only [pick_path_core]
          rw [if_neg hfresh]
          exact ⟨hfresh, by rw [List.insert_of_not_mem hfresh]⟩
      | cons d2 rest2 =>
          simp only [pick_path_core]
          by_cases hc : mk_candidate dirs stems exts d ∈ used
          · rw [if_pos hc]
            apply ih
            obtain ⟨d3, hd3, hfresh⟩ := h
            rcases List.mem_cons.mp hd3 with rfl | hmem
            · exact absurd hc hfresh
            · exact ⟨d3, hmem, hfresh⟩
          · rw [if_neg hc]
            exact ⟨hc, by rw [List.insert_of_not_mem hc]⟩

/-- C10 (amended).  Whenever at least one of the loop's candidate paths is
not already in `used`, `pick_path` returns a path that was not in `used`
and adds it to the set, so such successive calls never duplicate; only the
fallback taken when all 100 candidates collide lacks the freshness
guarantee (see the counterexample). -/
theorem pick_path_fresh (kind : String) (draws : List PathDraw)
    (fb_dir fb_num : ℕ) (used : List String)
    (h : ∃ d ∈ draws, ∃ c, kind_candidate kind d = some c ∧ c ∉ used) :
    ∃ p u2, pick_path kind draws fb_dir fb_num used = some (p, u2) ∧
      p ∉ used ∧ u2 = p :: used := by
  cases hd : alookup KIND_DIRS kind with
  | none =>
      obtain ⟨d3, -, c, hc, -⟩ := h
      rw [kind_candidate, hd] at hc
      exact absurd hc (by simp)
  | some dirs =>
      cases hs : alookup KIND_STEMS kind with
      | none =>
          obtain ⟨d3, -, c, hc, -⟩ := h
          rw [kind_candidate, hd, hs] at hc
          exact absurd hc (by simp)
      | some stems =>
          cases he : alookup KIND_EXTENSIONS kind with
          | none =>
              obtain ⟨d3, -, c, hc, -⟩ := h
              rw [kind_candidate, hd, hs, he] at hc
              exact absurd hc (by simp)
          | some exts =>
              have h2 : ∃ d ∈ draws, mk_candidate dirs stems exts d ∉ used := by
                obtain ⟨d3, hd3, c, hc, hcu⟩ := h
                rw [kind_candidate, hd, hs, he] at hc
                exact ⟨d3, hd3, (Option.some.inj hc) ▸ hcu⟩
              obtain ⟨h3, h4⟩ :=
                pick_path_core_fresh dirs stems exts fb_dir fb_num draws used h2
              refine ⟨(pick_path_core dirs stems exts fb_dir fb_num draws used).1,
                (pick_path_core dirs stems exts fb_dir fb_num draws used).2,
                ?_, h3, h4⟩
              simp only [pick_path, hd, hs, he]

/-- Witness for C10 (amended): a single fresh draw for the text kind over
an empty `used` set. -/
theorem pick_path_fresh_witness :
    ∃ p u2, pick_path "text" [⟨0, 0, 0, false, 0⟩] 0 0 [] = some (p, u2) ∧
      p ∉ ([] : List String) ∧ u2 = p :: [] :=
  pick_path_fresh "text" [⟨0, 0, 0, false, 0⟩] 0 0 []
    ⟨⟨0, 0, 0, false, 0⟩, by decide, "src/main.rs", by decide, by decide⟩
